import Mathlib

/-!
A shallow embedding of the table-export pipeline of
`export_data_from_prod_db.py` (MySQL → SQLite batch copier), together with
proofs of its specified properties.

The embedding keeps the source's names where Lean allows it:
`fetch_table_count`, `get_table_columns`, `recreate_sqlite_table`,
`export_table`, the constant `CHUNK_SIZE`, and the worker loop of
`RdsExportUI._export_worker` (here `run_export`).  External effects are made
explicit: the MySQL source is a map from table names to stored tables, the
SQLite destination is a map from table names to created tables, progress
callbacks become an accumulated list of `(fraction, message)` pairs, and
injected failures of the row-count query / page writes are a `FailSpec`.
Fractions are modelled as rationals.
-/

namespace ProdExport

/-- Scalar cell values moving through the pipeline: SQL NULL, integers,
text, and raw byte strings (each byte a `Nat`, meant `< 256`). -/
inductive Value
  | vNull
  | vInt (n : Int)
  | vStr (s : String)
  | vBytes (bs : List Nat)
deriving DecidableEq

/-- The Unicode replacement character U+FFFD produced by a lossy decode. -/
def replacementChar : Char := Char.ofNat 0xFFFD

/-- Is `b` a UTF-8 continuation byte (`0x80 ≤ b ≤ 0xBF`)? -/
def isCont (b : Nat) : Bool := decide (0x80 ≤ b ∧ b < 0xC0)

/-- Valid second bytes of a three-byte UTF-8 sequence with lead byte `b`
(excludes overlong encodings for `0xE0` and surrogates for `0xED`). -/
def second3ok (b b2 : Nat) : Bool :=
  if b = 0xE0 then decide (0xA0 ≤ b2 ∧ b2 < 0xC0)
  else if b = 0xED then decide (0x80 ≤ b2 ∧ b2 < 0xA0)
  else isCont b2

/-- Valid second bytes of a four-byte UTF-8 sequence with lead byte `b`
(excludes overlong encodings for `0xF0` and out-of-range for `0xF4`). -/
def second4ok (b b2 : Nat) : Bool :=
  if b = 0xF0 then decide (0x90 ≤ b2 ∧ b2 < 0xC0)
  else if b = 0xF4 then decide (0x80 ≤ b2 ∧ b2 < 0x90)
  else isCont b2

/-- Models Python's `bytes.decode("utf-8", errors="replace")`: decode a byte
list, emitting one `U+FFFD` per maximal ill-formed subsequence, never
failing.  Each step consumes at least one byte. -/
def utf8DecodeReplaceAux : List Nat → List Char
  | [] => []
  | b :: rest =>
    if b < 0x80 then Char.ofNat b :: utf8DecodeReplaceAux rest
    else if 0xC2 ≤ b ∧ b ≤ 0xDF then
      match rest with
      | [] => [replacementChar]
      | b2 :: rest2 =>
        if isCont b2 then
          Char.ofNat (0x40 * (b - 0xC0) + (b2 - 0x80)) :: utf8DecodeReplaceAux rest2
        else replacementChar :: utf8DecodeReplaceAux (b2 :: rest2)
    else if 0xE0 ≤ b ∧ b ≤ 0xEF then
      match rest with
      | [] => [replacementChar]
      | b2 :: rest2 =>
        if second3ok b b2 then
          match rest2 with
          | [] => [replacementChar]
          | b3 :: rest3 =>
            if isCont b3 then
              Char.ofNat (0x1000 * (b - 0xE0) + 0x40 * (b2 - 0x80) + (b3 - 0x80)) ::
                utf8DecodeReplaceAux rest3
            else replacementChar :: utf8DecodeReplaceAux (b3 :: rest3)
        else replacementChar :: utf8DecodeReplaceAux (b2 :: rest2)
    else if 0xF0 ≤ b ∧ b ≤ 0xF4 then
      match rest with
      | [] => [replacementChar]
      | b2 :: rest2 =>
        if second4ok b b2 then
          match rest2 with
          | [] => [replacementChar]
          | b3 :: rest3 =>
            if isCont b3 then
              match rest3 with
              | [] => [replacementChar]
              | b4 :: rest4 =>
                if isCont b4 then
                  Char.ofNat (0x40000 * (b - 0xF0) + 0x1000 * (b2 - 0x80) +
                      0x40 * (b3 - 0x80) + (b4 - 0x80)) :: utf8DecodeReplaceAux rest4
                else replacementChar :: utf8DecodeReplaceAux (b4 :: rest4)
            else replacementChar :: utf8DecodeReplaceAux (b3 :: rest3)
        else replacementChar :: utf8DecodeReplaceAux (b2 :: rest2)
    else replacementChar :: utf8DecodeReplaceAux rest

/-- The lossy decode packaged as a `String`. -/
def utf8DecodeReplace (bs : List Nat) : String := String.mk (utf8DecodeReplaceAux bs)

/-- Models `v.decode('utf-8', errors='replace') if isinstance(v, (bytes, bytearray))
else v` — line 201 of the source. -/
def convertValue : Value → Value
  | Value.vBytes bs => Value.vStr (utf8DecodeReplace bs)
  | v => v

/-- One converted source row (line 201's list comprehension over a row). -/
def convertRow (r : List Value) : List Value := r.map convertValue

/-- A stored MySQL table: column names in introspection order, and rows of
values aligned with those columns. -/
structure SourceTable where
  columns : List String
  rows : List (List Value)

/-- The MySQL source database: what each table name holds. -/
abbrev MySqlDb := String → SourceTable

/-- The ambient configuration of the script: `TABLE_FIELDS` (the optional
per-table column allow-list loaded from `table_fields.json`) and
`TABLE_FILTERS` (the optional per-table WHERE predicate, modelled by its
semantics as a row predicate). -/
structure Config where
  TABLE_FIELDS : String → Option (List String)
  TABLE_FILTERS : String → Option (List Value → Bool)

/-- Injected external failures: does the `COUNT(*)` query raise for a table,
and does the batched insert of a given (0-based) page index raise. -/
structure FailSpec where
  countFails : String → Bool
  pageWriteFails : String → Nat → Bool

/-- Models `fetch_table_count` (lines 108-113): `SELECT COUNT(*) FROM table` with no
WHERE clause — the unfiltered row count of the stored table. -/
def fetch_table_count (src : MySqlDb) (table : String) : Nat :=
  (src table).rows.length

/-- Models `get_table_columns` (lines 115-132): discover the source columns; if the
allow-list JSON defines fields for the table, keep exactly the allow-list
entries that exist in MySQL (`[c for c in allowed if c in all_columns]`),
otherwise export all discovered columns. -/
def get_table_columns (cfg : Config) (src : MySqlDb) (table : String) : List String :=
  let all_columns := (src table).columns
  match cfg.TABLE_FIELDS table with
  | some allowed => allowed.filter (fun c => all_columns.contains c)
  | none => all_columns

/-- A created SQLite table: its column definitions `(name, declared type)` in
order, and its rows. -/
structure DestTable where
  colDefs : List (String × String)
  rows : List (List Value)
deriving DecidableEq

/-- The SQLite destination database: `none` when no table of that name
exists. -/
abbrev SqliteDb := String → Option DestTable

/-- Models `recreate_sqlite_table` (lines 134-148): `DROP TABLE IF EXISTS` then
`CREATE TABLE` with every column declared `TEXT`, in the given order. -/
def recreate_sqlite_table (db : SqliteDb) (table : String) (columns : List String) : SqliteDb :=
  fun n => if n = table then some ⟨columns.map (fun c => (c, "TEXT")), []⟩ else db n

/-- The committed effect of one `executemany` + `commit` (lines 204-205):
append the batch to the named table's rows. -/
def appendRows (db : SqliteDb) (table : String) (batch : List (List Value)) : SqliteDb :=
  fun n =>
    if n = table then (db n).map (fun t => ⟨t.colDefs, t.rows ++ batch⟩) else db n

/-- Evaluate the `SELECT col1, col2, ...` projection of one stored row:
for each requested column, the value at its index in the stored column
list. -/
def projectRow (tblCols : List String) (cols : List String) (row : List Value) : List Value :=
  cols.map (fun c => row.getD (tblCols.findIdx (fun c2 => c2 == c)) Value.vNull)

/-- The result set of `select_sql` (lines 178-187): the stored rows,
restricted by the table's `TABLE_FILTERS` predicate when one is configured,
projected to the export columns. -/
def selectedRows (cfg : Config) (src : MySqlDb) (table : String) : List (List Value) :=
  let srcTbl := src table
  let columns := get_table_columns cfg src table
  let filtered :=
    match cfg.TABLE_FILTERS table with
    | some p => srcTbl.rows.filter p
    | none => srcTbl.rows
  filtered.map (projectRow srcTbl.columns columns)

/-- Models `CHUNK_SIZE` (line 62): rows per `fetchmany` page. -/
def CHUNK_SIZE : Nat := 1000

/-- Structural worker for `chunkList`: `fuel` bounds the number of pages
(any value `≥ l.length` is enough when `n ≠ 0`). -/
def chunkListAux (n : Nat) : Nat → List α → List (List α)
  | 0, _ => []
  | _, [] => []
  | fuel + 1, x :: xs => (x :: xs).take n :: chunkListAux n fuel ((x :: xs).drop n)

/-- The successive non-empty pages returned by repeated `fetchmany n` until
exhaustion (the `while True: rows = mysql_cur.fetchmany(CHUNK_SIZE)` loop). -/
def chunkList (n : Nat) (l : List α) : List (List α) :=
  chunkListAux n l.length l

/-- Render a non-negative rational with one decimal place, modelling the
`{:.1f}` format used for the percentage (rounding to the nearest tenth). -/
def fmt1 (q : ℚ) : String :=
  let n : Int := round (q * 10)
  toString (n / 10) ++ "." ++ toString (n % 10)

/-- The throttled progress message of line 213:
`f"{table}: {rows_inserted}/{total_rows} rows ({table_progress*100:.1f}%)"`. -/
def table_progress_msg (table : String) (ri total : Nat) : String :=
  table ++ ": " ++ toString ri ++ "/" ++ toString total ++ " rows (" ++
    fmt1 ((ri : ℚ) / (total : ℚ) * 100) ++ "%)"

/-- One emitted progress pair of lines 211-213: the overall fraction
`offset_progress + table_weight * (rows_inserted / total_rows)` and the
throttled message. -/
def mkProgress (table : String) (off w : ℚ) (total ri : Nat) : ℚ × String :=
  (off + w * ((ri : ℚ) / (total : ℚ)), table_progress_msg table ri total)

/-- The `for _ in batch:` loop of lines 208-213: starting from `ri` rows
already inserted, insert `len` more rows one by one and emit a progress pair
after every row whose cumulative count is a multiple of 50. -/
def progressMsgsFor (table : String) (off w : ℚ) (total : Nat) : Nat → Nat → List (ℚ × String)
  | _, 0 => []
  | ri, len + 1 =>
    (if (ri + 1) % 50 = 0 then [mkProgress table off w total (ri + 1)] else []) ++
      progressMsgsFor table off w total (ri + 1) len

/-- The error text carried by the exception a failed page write raises. -/
def writeFailMsg (table : String) (pageIdx : Nat) : String :=
  "insert into " ++ table ++ " failed at page " ++ toString pageIdx

/-- Result of exporting one table: the destination state, the progress pairs
emitted through the callback, and the raised error if any. -/
structure TableResult where
  db : SqliteDb
  msgs : List (ℚ × String)
  err : Option String

/-- The page loop of lines 193-213: for each fetched page, either the
batched insert raises (the loop stops with the destination as committed so
far), or the converted batch is inserted and committed and the per-row
progress throttle runs.  `pageIdx` numbers the pages, `ri` is
`rows_inserted`. -/
def pageLoop (fail : FailSpec) (table : String) (off w : ℚ) (total : Nat) :
    List (List (List Value)) → Nat → Nat → SqliteDb → List (ℚ × String) → TableResult
  | [], _, _, db, msgs => { db := db, msgs := msgs, err := none }
  | page :: rest, pageIdx, ri, db, msgs =>
    if fail.pageWriteFails table pageIdx then
      { db := db, msgs := msgs, err := some (writeFailMsg table pageIdx) }
    else
      let batch := page.map convertRow
      pageLoop fail table off w total rest (pageIdx + 1) (ri + batch.length)
        (appendRows db table batch)
        (msgs ++ progressMsgsFor table off w total ri batch.length)

/-- Models `export_table` (lines 150-216): fetch the row count (a raised count query
is swallowed and treated as 0), resolve columns, recreate the destination
table; a zero count emits the single `"<table> (0 rows)"` pair and returns;
otherwise the filtered projected rows are streamed in `CHUNK_SIZE` pages
through `pageLoop`. -/
def export_table (cfg : Config) (src : MySqlDb) (fail : FailSpec) (db : SqliteDb)
    (table : String) (offset_progress table_weight : ℚ) : TableResult :=
  let total_rows := if fail.countFails table then 0 else fetch_table_count src table
  let columns := get_table_columns cfg src table
  let db2 := recreate_sqlite_table db table columns
  if total_rows = 0 then
    { db := db2
      msgs := [(offset_progress + table_weight, table ++ " (0 rows)")]
      err := none }
  else
    pageLoop fail table offset_progress table_weight total_rows
      (chunkList CHUNK_SIZE (selectedRows cfg src table)) 0 0 db2 []

/-- Result of a whole run: destination state, all emitted progress pairs, and
the error surfaced to the caller if any. -/
structure RunResult where
  db : SqliteDb
  msgs : List (ℚ × String)
  err : Option String

/-- The `for t in selected_tables:` loop of lines 450-456: per table, emit
the preparing message at the table's offset, run `export_table`, and stop at
the first raised error. -/
def exportLoop (cfg : Config) (src : MySqlDb) (fail : FailSpec) (w : ℚ) :
    List String → Nat → SqliteDb → List (ℚ × String) → RunResult
  | [], _, db, msgs => { db := db, msgs := msgs, err := none }
  | t :: rest, tablesDone, db, msgs =>
    let off := w * (tablesDone : ℚ)
    let msgs2 := msgs ++ [(off, "Preparing to export " ++ t ++ "...")]
    let r := export_table cfg src fail db t off w
    match r.err with
    | some e => { db := r.db, msgs := msgs2 ++ r.msgs, err := some e }
    | none => exportLoop cfg src fail w rest (tablesDone + 1) r.db (msgs2 ++ r.msgs)

/-- Models `RdsExportUI._export_worker` (lines 417-486), stripped of the widgets: an
empty selection returns at once; otherwise the connect message is emitted,
each table gets weight `1 / n`, and the run ends with either the completion
pair `(1.0, "Export complete. ...")` or the failure pair
`(0.0, "Export failed: <e>")` with the error surfaced to the caller. -/
def run_export (cfg : Config) (src : MySqlDb) (fail : FailSpec) (db0 : SqliteDb)
    (tables : List String) (dbPath : String) : RunResult :=
  if tables.isEmpty then { db := db0, msgs := [], err := none }
  else
    let w : ℚ := 1 / (tables.length : ℚ)
    let r := exportLoop cfg src fail w tables 0 db0
      [(2 / 100, "Connecting to MySQL...")]
    match r.err with
    | some e =>
      { db := r.db, msgs := r.msgs ++ [(0, "Export failed: " ++ e)], err := some e }
    | none =>
      { db := r.db
        msgs := r.msgs ++ [(1, "Export complete. Local DB saved at:\n" ++ dbPath)]
        err := none }

/-- The column definitions `recreate_sqlite_table` installs for a table. -/
def destCols (cfg : Config) (src : MySqlDb) (table : String) : List (String × String) :=
  (get_table_columns cfg src table).map (fun c => (c, "TEXT"))

/-- The pages `export_table` streams for a table. -/
def pagesOf (cfg : Config) (src : MySqlDb) (table : String) : List (List (List Value)) :=
  chunkList CHUNK_SIZE (selectedRows cfg src table)

/-- The destination table a fully successful export of one table produces:
the `TEXT` column definitions and all filtered, projected, converted rows. -/
def exportedContent (cfg : Config) (src : MySqlDb) (table : String) : DestTable :=
  ⟨destCols cfg src table, (selectedRows cfg src table).map convertRow⟩

/-- The converted rows of the first `p` pages of a table — what is committed
in the destination when the write of page `p` (0-based) raises. -/
def committedPages (cfg : Config) (src : MySqlDb) (table : String) (p : Nat) :
    List (List Value) :=
  ((pagesOf cfg src table).take p).flatten.map convertRow

/-! ### Concrete fixtures used to instantiate the theorems -/

/-- Configuration with no allow-lists and no filters. -/
def plainCfg : Config := ⟨fun _ => none, fun _ => none⟩

/-- No injected failures. -/
def noFail : FailSpec := ⟨fun _ => false, fun _ _ => false⟩

/-- Every row-count query raises. -/
def countFailAll : FailSpec := ⟨fun _ => true, fun _ _ => false⟩

/-- An empty destination. -/
def emptyDb : SqliteDb := fun _ => none

/-- A source whose every table is empty (one `id` column). -/
def srcEmptyTbl : MySqlDb := fun _ => ⟨["id"], []⟩

/-- A source whose every table holds three integer rows. -/
def srcRows3 : MySqlDb :=
  fun _ => ⟨["id"], [[Value.vInt 1], [Value.vInt 2], [Value.vInt 3]]⟩

/-- A destination already holding a `contacts` table with one row. -/
def dbPrior : SqliteDb :=
  fun t => if t = "contacts" then some ⟨[("id", "TEXT")], [[Value.vStr "old"]]⟩ else none

/-- Allow-list configuration: `contacts` restricted to `id, ghost, name`. -/
def cfgAllow : Config :=
  ⟨fun t => if t = "contacts" then some ["id", "ghost", "name"] else none, fun _ => none⟩

/-- A source whose every table has columns `id, name, extra`. -/
def srcCols3 : MySqlDb := fun _ => ⟨["id", "name", "extra"], []⟩

/-- A source whose every table holds 60 null rows. -/
def src60 : MySqlDb := fun _ => ⟨["id"], List.replicate 60 [Value.vNull]⟩

/-- Filter configuration: every table filtered to the single row
`[vInt 106]` (the semantics of `removed_by_user_id IN (106, 109)` on the
fixture rows). -/
def cfgFiltered : Config :=
  ⟨fun _ => none, fun _ => some (fun r => decide (r = [Value.vInt 106]))⟩

/-- A source whose every table holds rows `[106], [5], [7]`; only the first
matches the configured filter. -/
def srcFiltered : MySqlDb :=
  fun _ => ⟨["removed_by_user_id"], [[Value.vInt 106], [Value.vInt 5], [Value.vInt 7]]⟩

/-- Three-table source: `a` has one row, `b` has 1001 rows (two pages of
`CHUNK_SIZE = 1000`), `c` has one row. -/
def srcC1 : MySqlDb := fun t =>
  if t = "a" then ⟨["x"], [[Value.vInt 1]]⟩
  else if t = "b" then ⟨["y"], List.replicate 1001 [Value.vNull]⟩
  else ⟨["z"], [[Value.vInt 3]]⟩

/-- Failure injection: the write of page 1 (the second page) of table `b`
raises; everything else succeeds. -/
def failC1 : FailSpec := ⟨fun _ => false, fun t i => t == "b" && i == 1⟩

/-- Two-table source: `t1` has five rows, every other table two rows. -/
def srcC3 : MySqlDb := fun t =>
  if t = "t1" then
    ⟨["a"], [[Value.vInt 1], [Value.vInt 2], [Value.vInt 3], [Value.vInt 4], [Value.vInt 5]]⟩
  else ⟨["b"], [[Value.vStr "x"], [Value.vStr "y"]]⟩

/-! ### Helper lemmas -/

theorem appendRows_nil (db : SqliteDb) (t : String) : appendRows db t [] = db := by
  funext n
  by_cases h : n = t
  · subst h
    simp only [appendRows, if_pos rfl]
    cases db n <;> simp
  · simp [appendRows, h]

theorem appendRows_appendRows (db : SqliteDb) (t : String)
    (xs ys : List (List Value)) :
    appendRows (appendRows db t xs) t ys = appendRows db t (xs ++ ys) := by
  funext n
  by_cases h : n = t
  · subst h
    simp only [appendRows, if_pos rfl]
    cases db n <;> simp
  · simp [appendRows, h]

theorem appendRows_other {n t : String} (db : SqliteDb) (xs : List (List Value))
    (h : n ≠ t) : appendRows db t xs n = db n := by
  simp [appendRows, h]

theorem recreate_other {n t : String} (db : SqliteDb) (cols : List String)
    (h : n ≠ t) : recreate_sqlite_table db t cols n = db n := by
  simp [recreate_sqlite_table, h]

theorem recreate_self (db : SqliteDb) (t : String) (cols : List String) :
    recreate_sqlite_table db t cols t = some ⟨cols.map (fun c => (c, "TEXT")), []⟩ := by
  simp [recreate_sqlite_table]

theorem chunkListAux_flatten {α : Type} (n : Nat) (hn : n ≠ 0) :
    ∀ (fuel : Nat) (l : List α), l.length ≤ fuel →
      (chunkListAux n fuel l).flatten = l := by
  intro fuel
  induction fuel with
  | zero =>
    intro l hl
    have h : l = [] := List.eq_nil_of_length_eq_zero (Nat.le_zero.mp hl)
    subst h
    rfl
  | succ fuel ih =>
    intro l hl
    match l with
    | [] => rfl
    | x :: xs =>
      have hd : (List.drop n (x :: xs)).length ≤ fuel := by
        simp only [List.length_cons] at hl
        simp only [List.length_drop, List.length_cons]
        omega
      rw [chunkListAux, List.flatten_cons, ih _ hd, List.take_append_drop]

theorem chunkList_flatten {α : Type} (n : Nat) (hn : n ≠ 0) (l : List α) :
    (chunkList n l).flatten = l :=
  chunkListAux_flatten n hn l.length l (Nat.le_refl _)

theorem progressMsgsFor_eq (table : String) (off w : ℚ) (total : Nat) :
    ∀ len ri, progressMsgsFor table off w total ri len =
      ((List.range' (ri + 1) len).filter (fun k => decide (k % 50 = 0))).map
        (mkProgress table off w total) := by
  intro len
  induction len with
  | zero => intro ri; simp [progressMsgsFor]
  | succ len ih =>
    intro ri
    rw [progressMsgsFor, List.range'_succ, List.filter_cons]
    by_cases h : (ri + 1) % 50 = 0 <;> simp [h, ih]

theorem progressMsgsFor_append (table : String) (off w : ℚ) (total a b ri : Nat) :
    progressMsgsFor table off w total ri (a + b) =
      progressMsgsFor table off w total ri a ++
        progressMsgsFor table off w total (ri + a) b := by
  rw [progressMsgsFor_eq, progressMsgsFor_eq, progressMsgsFor_eq]
  have h : ri + a + 1 = ri + 1 + a := by omega
  rw [h, Nat.add_comm a b, ← List.range'_append_1, List.filter_append, List.map_append]

theorem pageLoop_nofail (fail : FailSpec) (t : String) (off w : ℚ) (total : Nat)
    (hw : ∀ i, fail.pageWriteFails t i = false) :
    ∀ (P : List (List (List Value))) (pi ri : Nat) (db : SqliteDb)
      (msgs : List (ℚ × String)),
      pageLoop fail t off w total P pi ri db msgs =
        { db := appendRows db t (P.flatten.map convertRow)
          msgs := msgs ++ progressMsgsFor t off w total ri P.flatten.length
          err := none } := by
  intro P
  induction P with
  | nil =>
    intro pi ri db msgs
    simp [pageLoop, appendRows_nil, progressMsgsFor]
  | cons page rest ih =>
    intro pi ri db msgs
    rw [pageLoop, if_neg (by simp [hw pi]), ih]
    simp only [List.flatten_cons, List.map_append, List.length_append, List.length_map,
      appendRows_appendRows, progressMsgsFor_append, List.append_assoc]

theorem pageLoop_db_other (fail : FailSpec) {n t : String} (off w : ℚ) (total : Nat)
    (h : n ≠ t) :
    ∀ (P : List (List (List Value))) (pi ri : Nat) (db : SqliteDb)
      (msgs : List (ℚ × String)),
      (pageLoop fail t off w total P pi ri db msgs).db n = db n := by
  intro P
  induction P with
  | nil => intro pi ri db msgs; simp [pageLoop]
  | cons page rest ih =>
    intro pi ri db msgs
    rw [pageLoop]
    by_cases hb : fail.pageWriteFails t pi = true
    · simp [hb]
    · rw [if_neg (by simp [hb]), ih]
      exact appendRows_other db _ h

theorem pageLoop_fail (fail : FailSpec) (t : String) (off w : ℚ) (total : Nat) :
    ∀ (k : Nat) (P : List (List (List Value))) (pi ri : Nat) (db : SqliteDb)
      (msgs : List (ℚ × String)),
      (∀ j, j < k → fail.pageWriteFails t (pi + j) = false) →
      fail.pageWriteFails t (pi + k) = true →
      k < P.length →
      pageLoop fail t off w total P pi ri db msgs =
        { db := appendRows db t ((P.take k).flatten.map convertRow)
          msgs := msgs ++ progressMsgsFor t off w total ri (P.take k).flatten.length
          err := some (writeFailMsg t (pi + k)) } := by
  intro k
  induction k with
  | zero =>
    intro P pi ri db msgs hbef hk hlen
    match P with
    | [] => simp at hlen
    | page :: rest =>
      rw [Nat.add_zero] at hk
      rw [pageLoop, if_pos hk]
      simp [appendRows_nil, progressMsgsFor]
  | succ k ih =>
    intro P pi ri db msgs hbef hk hlen
    match P with
    | [] => simp at hlen
    | page :: rest =>
      have h0 : fail.pageWriteFails t pi = false := by
        have := hbef 0 (by omega)
        simpa using this
      rw [pageLoop, if_neg (by simp [h0])]
      rw [ih rest (pi + 1) _ _ _
        (fun j hj => by
          have e : pi + 1 + j = pi + (j + 1) := by omega
          rw [e]; exact hbef (j + 1) (by omega))
        (by
          have e : pi + 1 + k = pi + (k + 1) := by omega
          rw [e]; exact hk)
        (by simpa using hlen)]
      have e : pi + 1 + k = pi + (k + 1) := by omega
      simp only [List.take_succ_cons, List.flatten_cons, List.map_append,
        List.length_append, List.length_map, appendRows_appendRows,
        progressMsgsFor_append, List.append_assoc, e]

theorem selectedRows_of_count_zero (cfg : Config) (src : MySqlDb) (table : String)
    (h : fetch_table_count src table = 0) : selectedRows cfg src table = [] := by
  have hrows : (src table).rows = [] :=
    List.eq_nil_of_length_eq_zero h
  simp only [selectedRows, hrows]
  cases cfg.TABLE_FILTERS table <;> simp

theorem export_table_zero (cfg : Config) (src : MySqlDb) (fail : FailSpec)
    (db : SqliteDb) (table : String) (off w : ℚ)
    (h0 : (if fail.countFails table then 0 else fetch_table_count src table) = 0) :
    export_table cfg src fail db table off w =
      { db := recreate_sqlite_table db table (get_table_columns cfg src table)
        msgs := [(off + w, table ++ " (0 rows)")]
        err := none } := by
  rw [export_table]
  simp [h0]

theorem export_table_eq_nonzero (cfg : Config) (src : MySqlDb) (fail : FailSpec)
    (db : SqliteDb) (table : String) (off w : ℚ)
    (hc : fail.countFails table = false)
    (h0 : fetch_table_count src table ≠ 0) :
    export_table cfg src fail db table off w =
      pageLoop fail table off w (fetch_table_count src table)
        (pagesOf cfg src table) 0 0
        (recreate_sqlite_table db table (get_table_columns cfg src table)) [] := by
  rw [export_table]
  simp [hc, h0, pagesOf]

theorem export_table_success (cfg : Config) (src : MySqlDb) (fail : FailSpec)
    (db : SqliteDb) (table : String) (off w : ℚ)
    (hc : fail.countFails table = false)
    (hw : ∀ i, fail.pageWriteFails table i = false) :
    (export_table cfg src fail db table off w).err = none ∧
    (export_table cfg src fail db table off w).db table =
      some (exportedContent cfg src table) ∧
    ∀ n, n ≠ table → (export_table cfg src fail db table off w).db n = db n := by
  by_cases h0 : fetch_table_count src table = 0
  · rw [export_table_zero cfg src fail db table off w (by simp [hc, h0])]
    refine ⟨rfl, ?_, ?_⟩
    · show recreate_sqlite_table db table (get_table_columns cfg src table) table =
        some (exportedContent cfg src table)
      rw [recreate_self]
      simp [exportedContent, destCols, selectedRows_of_count_zero cfg src table h0]
    · intro n hn
      exact recreate_other db _ hn
  · rw [export_table_eq_nonzero cfg src fail db table off w hc h0,
      pageLoop_nofail fail table off w _ hw]
    have hfl : (pagesOf cfg src table).flatten = selectedRows cfg src table :=
      chunkList_flatten CHUNK_SIZE (by norm_num [CHUNK_SIZE]) _
    refine ⟨rfl, ?_, ?_⟩
    · show appendRows (recreate_sqlite_table db table (get_table_columns cfg src table))
        table ((pagesOf cfg src table).flatten.map convertRow) table =
          some (exportedContent cfg src table)
      rw [hfl]
      simp [appendRows, recreate_self, exportedContent, destCols]
    · intro n hn
      show appendRows (recreate_sqlite_table db table (get_table_columns cfg src table))
        table ((pagesOf cfg src table).flatten.map convertRow) n = db n
      rw [appendRows_other _ _ hn]
      exact recreate_other db _ hn

theorem export_table_fail_at (cfg : Config) (src : MySqlDb) (fail : FailSpec)
    (db : SqliteDb) (table : String) (off w : ℚ) (p : Nat)
    (hc : fail.countFails table = false)
    (ht : fetch_table_count src table ≠ 0)
    (hfp : fail.pageWriteFails table p = true)
    (hbp : ∀ i, i < p → fail.pageWriteFails table i = false)
    (hplen : p < (pagesOf cfg src table).length) :
    (export_table cfg src fail db table off w).err = some (writeFailMsg table p) ∧
    (export_table cfg src fail db table off w).db table =
      some ⟨destCols cfg src table, committedPages cfg src table p⟩ ∧
    ∀ n, n ≠ table → (export_table cfg src fail db table off w).db n = db n := by
  rw [export_table_eq_nonzero cfg src fail db table off w hc ht,
    pageLoop_fail fail table off w _ p _ 0 0 _ _
      (fun j hj => by simpa using hbp j hj) (by simpa using hfp) hplen]
  refine ⟨by simp, ?_, ?_⟩
  · show appendRows (recreate_sqlite_table db table (get_table_columns cfg src table))
      table (((pagesOf cfg src table).take p).flatten.map convertRow) table =
        some ⟨destCols cfg src table, committedPages cfg src table p⟩
    simp [appendRows, recreate_self, committedPages, destCols]
  · intro n hn
    show appendRows (recreate_sqlite_table db table (get_table_columns cfg src table))
      table (((pagesOf cfg src table).take p).flatten.map convertRow) n = db n
    rw [appendRows_other _ _ hn]
    exact recreate_other db _ hn

theorem export_table_msgs_nofail (cfg : Config) (src : MySqlDb) (fail : FailSpec)
    (db : SqliteDb) (table : String) (off w : ℚ)
    (hc : fail.countFails table = false)
    (ht : fetch_table_count src table ≠ 0)
    (hw : ∀ i, fail.pageWriteFails table i = false) :
    (export_table cfg src fail db table off w).msgs =
      ((List.range' 1 (selectedRows cfg src table).length).filter
          (fun k => decide (k % 50 = 0))).map
        (mkProgress table off w (fetch_table_count src table)) := by
  rw [export_table_eq_nonzero cfg src fail db table off w hc ht,
    pageLoop_nofail fail table off w _ hw]
  show [] ++ progressMsgsFor table off w (fetch_table_count src table) 0
      (pagesOf cfg src table).flatten.length = _
  rw [List.nil_append, pagesOf,
    chunkList_flatten CHUNK_SIZE (by norm_num [CHUNK_SIZE]) (selectedRows cfg src table),
    progressMsgsFor_eq]

theorem exportLoop_fail (cfg : Config) (src : MySqlDb) (fail : FailSpec) (w : ℚ)
    (t : String) (post : List String) (p : Nat)
    (hc : fail.countFails t = false)
    (ht : fetch_table_count src t ≠ 0)
    (hfp : fail.pageWriteFails t p = true)
    (hbp : ∀ i, i < p → fail.pageWriteFails t i = false)
    (hplen : p < (pagesOf cfg src t).length) :
    ∀ (pre : List String) (k : Nat) (db : SqliteDb) (msgs : List (ℚ × String)),
      (pre ++ t :: post).Nodup →
      (∀ u ∈ pre, fail.countFails u = false ∧ ∀ i, fail.pageWriteFails u i = false) →
      (exportLoop cfg src fail w (pre ++ t :: post) k db msgs).err =
          some (writeFailMsg t p) ∧
      (∀ u ∈ pre,
        (exportLoop cfg src fail w (pre ++ t :: post) k db msgs).db u =
          some (exportedContent cfg src u)) ∧
      (exportLoop cfg src fail w (pre ++ t :: post) k db msgs).db t =
        some ⟨destCols cfg src t, committedPages cfg src t p⟩ ∧
      (∀ n, n ∉ pre → n ≠ t →
        (exportLoop cfg src fail w (pre ++ t :: post) k db msgs).db n = db n) := by
  intro pre
  induction pre with
  | nil =>
    intro k db msgs hnd hpre
    have hfail := export_table_fail_at cfg src fail db t (w * (k : ℚ)) w p hc ht hfp hbp hplen
    simp only [List.nil_append, exportLoop, hfail.1]
    exact ⟨trivial, by simp, hfail.2.1, fun n _ hn => hfail.2.2 n hn⟩
  | cons u pre' ih =>
    intro k db msgs hnd hpre
    have hu := hpre u (List.mem_cons_self u pre')
    have hsucc := export_table_success cfg src fail db u (w * (k : ℚ)) w hu.1 hu.2
    rw [List.cons_append] at hnd ⊢
    have hnotin : u ∉ pre' ++ t :: post := (List.nodup_cons.mp hnd).1
    have hut : u ≠ t := by
      intro h
      exact hnotin (by simp [h])
    have hupre : u ∉ pre' := fun h => hnotin (by simp [h])
    simp only [exportLoop, hsucc.1]
    have hih := ih (k + 1) (export_table cfg src fail db u (w * (k : ℚ)) w).db
      (msgs ++ [(w * (k : ℚ), "Preparing to export " ++ u ++ "...")] ++
        (export_table cfg src fail db u (w * (k : ℚ)) w).msgs)
      (List.nodup_cons.mp hnd).2
      (fun v hv => hpre v (List.mem_cons_of_mem u hv))
    refine ⟨hih.1, ?_, hih.2.2.1, ?_⟩
    · intro v hv
      rcases List.mem_cons.mp hv with hv | hv
      · subst hv
        rw [hih.2.2.2 v hupre hut]
        exact hsucc.2.1
      · exact hih.2.1 v hv
    · intro n hn hnt
      have hnu : n ≠ u := fun h => hn (by simp [h])
      have hnpre : n ∉ pre' := fun h => hn (List.mem_cons_of_mem u h)
      rw [hih.2.2.2 n hnpre hnt]
      exact hsucc.2.2 n hnu

/-! ### Claim theorems -/

/-- C2: for every table with a configured allow-list, column resolution
returns exactly the allow-list entries that also appear in the discovered
source columns, in allow-list order and nothing else (entries absent from
the discovered columns are silently dropped); for every table without an
allow-list it returns the discovered columns unchanged. -/
theorem get_table_columns_resolution_spec (cfg : Config) (src : MySqlDb) (table : String) :
    (∀ allowed, cfg.TABLE_FIELDS table = some allowed →
      List.Sublist (get_table_columns cfg src table) allowed ∧
      ∀ c, c ∈ get_table_columns cfg src table ↔
        c ∈ allowed ∧ c ∈ (src table).columns) ∧
    (cfg.TABLE_FIELDS table = none →
      get_table_columns cfg src table = (src table).columns) := by
  constructor
  · intro allowed hall
    rw [get_table_columns]
    simp only [hall]
    exact ⟨List.filter_sublist allowed, fun c => by simp⟩
  · intro hnone
    rw [get_table_columns]
    simp [hnone]

/-- Witness for C2: the `contacts` allow-list `[id, ghost, name]` against
discovered columns `[id, name, extra]` resolves to `[id, name]`; a table
without an allow-list keeps its discovered columns. -/
theorem get_table_columns_resolution_spec_witness :
    List.Sublist (get_table_columns cfgAllow srcCols3 "contacts") ["id", "ghost", "name"] ∧
    get_table_columns cfgAllow srcCols3 "contacts" = ["id", "name"] ∧
    get_table_columns cfgAllow srcCols3 "upload_processors" = ["id", "name", "extra"] :=
  ⟨((get_table_columns_resolution_spec cfgAllow srcCols3 "contacts").1
      ["id", "ghost", "name"] rfl).1,
   by decide,
   (get_table_columns_resolution_spec cfgAllow srcCols3 "upload_processors").2 rfl⟩

/-- C9: `recreate_sqlite_table` drops the destination table if present and
creates it with one `TEXT`-typed column per entry of the column list, in the
given order; it succeeds whatever the prior state (in particular when the
table did not exist), touches no other table, and running it twice with the
same arguments is idempotent, leaving exactly one table of that name with
zero rows and the same column set. -/
theorem recreate_sqlite_table_spec (db : SqliteDb) (table : String) (columns : List String) :
    recreate_sqlite_table db table columns table =
      some ⟨columns.map (fun c => (c, "TEXT")), []⟩ ∧
    (∀ n, n ≠ table → recreate_sqlite_table db table columns n = db n) ∧
    recreate_sqlite_table (recreate_sqlite_table db table columns) table columns =
      recreate_sqlite_table db table columns := by
  refine ⟨recreate_self db table columns, fun n hn => recreate_other db columns hn, ?_⟩
  funext n
  by_cases h : n = table <;> simp [recreate_sqlite_table, h]

/-- Witness for C9: recreating `contacts` over a destination that already
holds a non-empty `contacts` table yields the new empty two-column table,
leaves `others` alone, and recreating twice equals recreating once. -/
theorem recreate_sqlite_table_spec_witness :
    recreate_sqlite_table dbPrior "contacts" ["id", "name"] "contacts" =
      some ⟨[("id", "TEXT"), ("name", "TEXT")], []⟩ ∧
    recreate_sqlite_table dbPrior "contacts" ["id", "name"] "others" = dbPrior "others" ∧
    recreate_sqlite_table (recreate_sqlite_table dbPrior "contacts" ["id", "name"])
        "contacts" ["id", "name"] =
      recreate_sqlite_table dbPrior "contacts" ["id", "name"] :=
  ⟨(recreate_sqlite_table_spec dbPrior "contacts" ["id", "name"]).1,
   (recreate_sqlite_table_spec dbPrior "contacts" ["id", "name"]).2.1 "others" (by decide),
   (recreate_sqlite_table_spec dbPrior "contacts" ["id", "name"]).2.2⟩

/-- C10: each byte value is decoded to text by the lossy replacing decode —
a total function, so the conversion never raises — while integer, string
and null values pass through unchanged; a non-decodable byte such as `0xFF`
becomes the replacement character `U+FFFD`. -/
theorem convert_value_decode_spec :
    (∀ n : Int, convertValue (Value.vInt n) = Value.vInt n) ∧
    (∀ s : String, convertValue (Value.vStr s) = Value.vStr s) ∧
    convertValue Value.vNull = Value.vNull ∧
    (∀ bs : List Nat, convertValue (Value.vBytes bs) = Value.vStr (utf8DecodeReplace bs)) ∧
    (∀ rest : List Nat,
      utf8DecodeReplaceAux (0xFF :: rest) = replacementChar :: utf8DecodeReplaceAux rest) := by
  refine ⟨fun n => rfl, fun s => rfl, rfl, fun bs => rfl, fun rest => ?_⟩
  rw [utf8DecodeReplaceAux.eq_def]
  norm_num

/-- C4: for a table whose (unfiltered) row count is 0 and whose count query
does not error, the export emits exactly one progress pair, at fraction
`offset + weight` with message `"<table> (0 rows)"`, the destination table
is still dropped and recreated empty before that update (the resulting
state is exactly the recreated one), and no error is raised. -/
theorem export_table_zero_rows_spec (cfg : Config) (src : MySqlDb) (fail : FailSpec)
    (db : SqliteDb) (table : String) (off w : ℚ)
    (hc : fail.countFails table = false)
    (h0 : fetch_table_count src table = 0) :
    export_table cfg src fail db table off w =
      { db := recreate_sqlite_table db table (get_table_columns cfg src table)
        msgs := [(off + w, table ++ " (0 rows)")]
        err := none } :=
  export_table_zero cfg src fail db table off w (by simp [hc, h0])

/-- Witness for C4: an empty `contacts` table at offset 0 and weight 1. -/
theorem export_table_zero_rows_spec_witness :
    export_table plainCfg srcEmptyTbl noFail emptyDb "contacts" 0 1 =
      { db := recreate_sqlite_table emptyDb "contacts"
          (get_table_columns plainCfg srcEmptyTbl "contacts")
        msgs := [(0 + 1, "contacts" ++ " (0 rows)")]
        err := none } :=
  export_table_zero_rows_spec plainCfg srcEmptyTbl noFail emptyDb "contacts" 0 1 rfl rfl

/-- C7: if the row-count query for a table errors, the count is treated as
0: no error is surfaced (`err = none`), the table is still processed — its
destination table is recreated — and exactly one `"<table> (0 rows)"`
progress pair is emitted, whatever the source rows are. -/
theorem export_table_count_error_spec (cfg : Config) (src : MySqlDb) (fail : FailSpec)
    (db : SqliteDb) (table : String) (off w : ℚ)
    (hc : fail.countFails table = true) :
    export_table cfg src fail db table off w =
      { db := recreate_sqlite_table db table (get_table_columns cfg src table)
        msgs := [(off + w, table ++ " (0 rows)")]
        err := none } :=
  export_table_zero cfg src fail db table off w (by simp [hc])

/-- Witness for C7: a failing count query over a source table that holds
three rows. -/
theorem export_table_count_error_spec_witness :
    export_table plainCfg srcRows3 countFailAll emptyDb "contacts" 0 1 =
      { db := recreate_sqlite_table emptyDb "contacts"
          (get_table_columns plainCfg srcRows3 "contacts")
        msgs := [(0 + 1, "contacts" ++ " (0 rows)")]
        err := none } :=
  export_table_count_error_spec plainCfg srcRows3 countFailAll emptyDb "contacts" 0 1 rfl

/-- C8: if the row-count query errors for a source table that actually
contains rows, the destination table is nevertheless dropped and recreated
empty, no source rows are copied, and the prior destination contents of
that table are lost, all while the error stays swallowed. -/
theorem export_table_count_error_clobber_spec (cfg : Config) (src : MySqlDb)
    (fail : FailSpec) (db : SqliteDb) (table : String) (off w : ℚ) (d : DestTable)
    (hc : fail.countFails table = true)
    (_hrows : (src table).rows ≠ [])
    (hprior : db table = some d)
    (hne : d.rows ≠ []) :
    (export_table cfg src fail db table off w).db table =
      some ⟨destCols cfg src table, []⟩ ∧
    (export_table cfg src fail db table off w).db table ≠ db table ∧
    (export_table cfg src fail db table off w).err = none := by
  rw [export_table_zero cfg src fail db table off w (by simp [hc])]
  refine ⟨?_, ?_, rfl⟩
  · show recreate_sqlite_table db table (get_table_columns cfg src table) table = _
    rw [recreate_self]
    rfl
  · show recreate_sqlite_table db table (get_table_columns cfg src table) table ≠ db table
    rw [recreate_self, hprior]
    intro heq
    have h2 := Option.some.inj heq
    exact hne (by rw [← h2])

/-- Witness for C8: a failing count over a three-row source table, with a
destination already holding a non-empty `contacts` table. -/
theorem export_table_count_error_clobber_spec_witness :
    (export_table plainCfg srcRows3 countFailAll dbPrior "contacts" 0 1).db "contacts" =
      some ⟨destCols plainCfg srcRows3 "contacts", []⟩ ∧
    (export_table plainCfg srcRows3 countFailAll dbPrior "contacts" 0 1).db "contacts" ≠
      dbPrior "contacts" ∧
    (export_table plainCfg srcRows3 countFailAll dbPrior "contacts" 0 1).err = none :=
  export_table_count_error_clobber_spec plainCfg srcRows3 countFailAll dbPrior
    "contacts" 0 1 ⟨[("id", "TEXT")], [[Value.vStr "old"]]⟩ rfl (by decide) rfl (by decide)

/-- C5: for a table with rows (and no injected failures), a progress pair is
emitted exactly when the cumulative number of inserted rows — across pages,
not per page — is a multiple of 50: the emitted list is precisely the
multiples of 50 among `1..N` (`N` the number of streamed rows), each mapped
to the fraction `offset + weight * (rows_inserted / total_rows)` and the
message `"<table>: <rows_inserted>/<total_rows> rows (<pct>%)"`
(see `mkProgress`). -/
theorem export_table_throttle_spec (cfg : Config) (src : MySqlDb) (fail : FailSpec)
    (db : SqliteDb) (table : String) (off w : ℚ)
    (hc : fail.countFails table = false)
    (ht : fetch_table_count src table ≠ 0)
    (hw : ∀ i, fail.pageWriteFails table i = false) :
    (export_table cfg src fail db table off w).msgs =
      ((List.range' 1 (selectedRows cfg src table).length).filter
          (fun k => decide (k % 50 = 0))).map
        (mkProgress table off w (fetch_table_count src table)) :=
  export_table_msgs_nofail cfg src fail db table off w hc ht hw

/-- Witness for C5: a 60-row table (one page) emits exactly the pairs for
the multiples of 50 up to 60 — that is, the single pair for the 50th row. -/
theorem export_table_throttle_spec_witness :
    (export_table plainCfg src60 noFail emptyDb "contacts" 0 1).msgs =
      ((List.range' 1 (selectedRows plainCfg src60 "contacts").length).filter
          (fun k => decide (k % 50 = 0))).map
        (mkProgress "contacts" 0 1 (fetch_table_count src60 "contacts")) :=
  export_table_throttle_spec plainCfg src60 noFail emptyDb "contacts" 0 1 rfl
    (by decide) (fun i => rfl)

/-- C6: the denominator of the per-table progress fraction is the unfiltered
`COUNT(*)` of the whole table, while the inserted rows come from the
filtered SELECT (the destination receives exactly the filtered rows);
consequently, when the filter excludes at least one row every progress pair
emitted from within that table's export has fraction strictly below
`offset + weight`, and a nonempty table whose filter matches zero rows
emits no per-table progress pair at all. -/
theorem export_table_filtered_denominator_spec (cfg : Config) (src : MySqlDb)
    (fail : FailSpec) (db : SqliteDb) (table : String) (off w : ℚ)
    (hc : fail.countFails table = false)
    (ht : fetch_table_count src table ≠ 0)
    (hwf : ∀ i, fail.pageWriteFails table i = false)
    (hw : 0 < w) :
    fetch_table_count src table = (src table).rows.length ∧
    (export_table cfg src fail db table off w).db table =
      some (exportedContent cfg src table) ∧
    ((selectedRows cfg src table).length < fetch_table_count src table →
      ∀ fm ∈ (export_table cfg src fail db table off w).msgs, fm.1 < off + w) ∧
    (selectedRows cfg src table = [] →
      (export_table cfg src fail db table off w).msgs = []) := by
  refine ⟨rfl, (export_table_success cfg src fail db table off w hc hwf).2.1, ?_, ?_⟩
  · intro hlt fm hfm
    rw [export_table_msgs_nofail cfg src fail db table off w hc ht hwf] at hfm
    obtain ⟨k, hk, rfl⟩ := List.mem_map.mp hfm
    have hkr := List.mem_filter.mp hk
    have hkb := List.mem_range'_1.mp hkr.1
    have hklt : k < fetch_table_count src table := by omega
    have htpos : (0 : ℚ) < (fetch_table_count src table : ℚ) := by
      exact_mod_cast Nat.pos_of_ne_zero ht
    have hfrac : (k : ℚ) / (fetch_table_count src table : ℚ) < 1 :=
      (div_lt_one htpos).mpr (by exact_mod_cast hklt)
    have := mul_lt_mul_of_pos_left hfrac hw
    show off + w * ((k : ℚ) / (fetch_table_count src table : ℚ)) < off + w
    linarith
  · intro hsel
    rw [export_table_msgs_nofail cfg src fail db table off w hc ht hwf, hsel]
    rfl

/-- Witness for C6: three source rows, a filter keeping only `[vInt 106]`:
the count is 3, the destination gets the single filtered row, and the
emitted fractions (none, as 1 < 50) all stay below offset + weight. -/
theorem export_table_filtered_denominator_spec_witness :
    fetch_table_count srcFiltered "remove_contacts" =
      (srcFiltered "remove_contacts").rows.length ∧
    (export_table cfgFiltered srcFiltered noFail emptyDb "remove_contacts" 0 1).db
        "remove_contacts" =
      some (exportedContent cfgFiltered srcFiltered "remove_contacts") ∧
    ((selectedRows cfgFiltered srcFiltered "remove_contacts").length <
        fetch_table_count srcFiltered "remove_contacts" →
      ∀ fm ∈ (export_table cfgFiltered srcFiltered noFail emptyDb
          "remove_contacts" 0 1).msgs, fm.1 < 0 + 1) ∧
    (selectedRows cfgFiltered srcFiltered "remove_contacts" = [] →
      (export_table cfgFiltered srcFiltered noFail emptyDb
          "remove_contacts" 0 1).msgs = []) :=
  export_table_filtered_denominator_spec cfgFiltered srcFiltered noFail emptyDb
    "remove_contacts" 0 1 rfl (by decide) (fun i => rfl) (by norm_num)

/-- C1: pages are written one batched insert at a time and committed before
the next page (in the model, each page is appended durably inside
`pageLoop`); if the write of page `p` of table `t` fails mid-run, then the
run surfaces that error to the caller, every table fully written earlier in
the run keeps its complete exported contents, table `t` keeps exactly the
rows of its earlier committed pages, no later table is touched, and the
last emitted progress pair is the failure message at fraction 0. -/
theorem run_page_write_failure_spec (cfg : Config) (src : MySqlDb) (fail : FailSpec)
    (db0 : SqliteDb) (dbPath : String) (pre post : List String) (t : String) (p : Nat)
    (hnd : (pre ++ t :: post).Nodup)
    (hpre : ∀ u ∈ pre, fail.countFails u = false ∧ ∀ i, fail.pageWriteFails u i = false)
    (hc : fail.countFails t = false)
    (ht : fetch_table_count src t ≠ 0)
    (hfp : fail.pageWriteFails t p = true)
    (hbp : ∀ i, i < p → fail.pageWriteFails t i = false)
    (hplen : p < (pagesOf cfg src t).length) :
    (run_export cfg src fail db0 (pre ++ t :: post) dbPath).err =
      some (writeFailMsg t p) ∧
    (∀ u ∈ pre, (run_export cfg src fail db0 (pre ++ t :: post) dbPath).db u =
      some (exportedContent cfg src u)) ∧
    (run_export cfg src fail db0 (pre ++ t :: post) dbPath).db t =
      some ⟨destCols cfg src t, committedPages cfg src t p⟩ ∧
    (∀ u ∈ post, (run_export cfg src fail db0 (pre ++ t :: post) dbPath).db u = db0 u) ∧
    (run_export cfg src fail db0 (pre ++ t :: post) dbPath).msgs.getLast? =
      some (0, "Export failed: " ++ writeFailMsg t p) := by
  have hloop := exportLoop_fail cfg src fail (1 / ((pre ++ t :: post).length : ℚ)) t post
    p hc ht hfp hbp hplen pre 0 db0 [(2 / 100, "Connecting to MySQL...")] hnd hpre
  have hnd' := (List.nodup_append.mp hnd)
  have htpost : t ∉ post := (List.nodup_cons.mp hnd'.2.1).1
  have hdisj := hnd'.2.2
  rw [run_export, if_neg (by simp)]
  simp only [hloop.1]
  refine ⟨trivial, fun u hu => hloop.2.1 u hu, hloop.2.2.1, ?_, List.getLast?_concat _⟩
  intro u hu
  refine hloop.2.2.2 u ?_ ?_
  · intro hupre
    exact hdisj hupre (List.mem_cons_of_mem t hu)
  · intro h
    exact htpost (h ▸ hu)

set_option maxRecDepth 8000 in
/-- Witness for C1: three tables `a, b, c`; `b` has 1001 rows (two pages)
and the write of its second page fails.  `a` keeps its full export, `b`
keeps exactly its first committed page, `c` is untouched, the error is
surfaced and the last message is the failure pair. -/
theorem run_page_write_failure_spec_witness :
    (run_export plainCfg srcC1 failC1 emptyDb ["a", "b", "c"] "out.db").err =
      some (writeFailMsg "b" 1) ∧
    (∀ u ∈ ["a"], (run_export plainCfg srcC1 failC1 emptyDb ["a", "b", "c"] "out.db").db u =
      some (exportedContent plainCfg srcC1 u)) ∧
    (run_export plainCfg srcC1 failC1 emptyDb ["a", "b", "c"] "out.db").db "b" =
      some ⟨destCols plainCfg srcC1 "b", committedPages plainCfg srcC1 "b" 1⟩ ∧
    (∀ u ∈ ["c"], (run_export plainCfg srcC1 failC1 emptyDb ["a", "b", "c"] "out.db").db u =
      emptyDb u) ∧
    (run_export plainCfg srcC1 failC1 emptyDb ["a", "b", "c"] "out.db").msgs.getLast? =
      some (0, "Export failed: " ++ writeFailMsg "b" 1) :=
  run_page_write_failure_spec plainCfg srcC1 failC1 emptyDb "out.db" ["a"] ["c"] "b" 1
    (by decide)
    (fun u hu => by
      have h : u = "a" := by simpa using hu
      subst h
      exact ⟨rfl, fun i => rfl⟩)
    rfl
    (by decide)
    rfl
    (fun i hi => by
      have h : i = 0 := by omega
      subst h
      rfl)
    (by decide)

/-- C3 (evidence of the under-reporting gap): table `t1` has five rows, yet
its export emits no progress pair at all — five is below the 50-row
throttle and no final end-of-table update exists — so in the two-table run
no pair attributable to `t1` ever reaches its `offset + weight = 1/2`
milestone before `t2`'s band begins: the run's pairs jump from
`(0, "Preparing to export t1...")` straight to
`(1/2, "Preparing to export t2...")`. -/
theorem run_under_reporting_five_rows :
    fetch_table_count srcC3 "t1" = 5 ∧
    (export_table plainCfg srcC3 noFail emptyDb "t1" 0 (1 / 2)).msgs = [] ∧
    (run_export plainCfg srcC3 noFail emptyDb ["t1", "t2"] "out.db").msgs =
      [(2 / 100, "Connecting to MySQL..."),
       (0, "Preparing to export t1..."),
       (1 / 2, "Preparing to export t2..."),
       (1, "Export complete. Local DB saved at:\nout.db")] := by
  refine ⟨by decide, ?_, ?_⟩
  · rw [export_table_msgs_nofail plainCfg srcC3 noFail emptyDb "t1" 0 (1 / 2) rfl
      (by decide) (fun i => rfl)]
    have l1 : (selectedRows plainCfg srcC3 "t1").length = 5 := by decide
    rw [l1]
    decide
  · rw [run_export, if_neg (by simp)]
    simp only [exportLoop]
    rw [(export_table_success plainCfg srcC3 noFail emptyDb "t1" _ _ rfl (fun i => rfl)).1]
    simp only []
    rw [(export_table_success plainCfg srcC3 noFail _ "t2" _ _ rfl (fun i => rfl)).1]
    simp only []
    rw [export_table_msgs_nofail plainCfg srcC3 noFail emptyDb "t1" _ _ rfl (by decide)
        (fun i => rfl),
      export_table_msgs_nofail plainCfg srcC3 noFail _ "t2" _ _ rfl (by decide)
        (fun i => rfl)]
    have l1 : (selectedRows plainCfg srcC3 "t1").length = 5 := by decide
    have l2 : (selectedRows plainCfg srcC3 "t2").length = 2 := by decide
    rw [l1, l2]
    have f1 : ((List.range' 1 5).filter (fun k => decide (k % 50 = 0))) = [] := by decide
    have f2 : ((List.range' 1 2).filter (fun k => decide (k % 50 = 0))) = [] := by decide
    rw [f1, f2]
    simp only [List.map_nil, List.append_nil, List.nil_append]
    norm_num
    exact ⟨rfl, rfl, rfl⟩

end ProdExport
